import Mathlib

/-!
Shallow embedding of `src/langchain_hwp_hwpx/loader.py` (HWP/HWPX LangChain
loaders): the data model, the single-file extraction pipeline
(`HwpHwpxLoader.lazy_load` and its helpers) and the directory collector
(`HwpHwpxDirectoryLoader`), together with theorems settling the frozen
claims about them.

Python dynamic values reaching `_string` / `_safe_int` are modelled by
`PyVal`; duck-typed attribute access `getattr(obj, k, default)` is modelled
by `Option` fields (`none` = attribute absent) combined with the default.
Exceptions are modelled by `PyExc`; a generator run is modelled by a
`LoadResult` recording the yielded documents, the logged warnings, the
escaping exception (if any) and the filesystem effects performed.
-/

namespace HwpLoader

/-- A Python value as seen by the loader's duck-typed helpers. -/
inductive PyVal where
  | vnone : PyVal
  | vstr (s : String) : PyVal
  | vint (n : Int) : PyVal
  deriving DecidableEq, Repr

/-- `_string(value)`: `""` for `None`, else `str(value)`. -/
def pyStr : PyVal → String
  | .vnone => ""
  | .vstr s => s
  | .vint n => toString n

/-- Python `s.lower()` (ASCII range, matching the loader's inputs). -/
def pyLower (s : String) : String :=
  String.mk (s.toList.map Char.toLower)

/-- Python `s.upper()` (ASCII range). -/
def pyUpper (s : String) : String :=
  String.mk (s.toList.map Char.toUpper)

/-- Python `s.strip()`: whitespace removed from both ends. -/
def pyTrim (s : String) : String :=
  String.mk ((((s.toList.dropWhile Char.isWhitespace).reverse).dropWhile
    Char.isWhitespace).reverse)

/-- Python `s.endswith(t)`. -/
def pyEndsWith (s t : String) : Bool :=
  decide (t.toList <:+ s.toList)

/-- Decimal digits to a value; `none` on any non-digit. -/
def digitsValAux : List Char → Nat → Option Nat
  | [], acc => some acc
  | c :: rest, acc =>
    if c.isDigit then digitsValAux rest (acc * 10 + (c.toNat - '0'.toNat)) else none

/-- Python `int(s)` on an already-stripped string: an optional sign then
decimal digits, else a `ValueError` (`none`). -/
def pyInt : String → Option Int
  | s =>
    match s.toList with
    | [] => none
    | '-' :: rest =>
      if rest = [] then none else (digitsValAux rest 0).map (fun n => -(n : Int))
    | '+' :: rest =>
      if rest = [] then none else (digitsValAux rest 0).map (fun n => (n : Int))
    | l => (digitsValAux l 0).map (fun n => (n : Int))

/-- `_safe_int(value)`: `int(value)` or `None` on `TypeError`/`ValueError`. -/
def safeInt : PyVal → Option Int
  | .vnone => none
  | .vint n => some n
  | .vstr s => pyInt (pyTrim s)

/-- Python `needle in hay` on strings: substring containment. -/
def strContains (hay needle : String) : Bool :=
  decide (needle.toList <:+: hay.toList)

/-- `Path(p).name`: the final path component (paths are taken already
normalized, without a trailing slash). -/
def pyName (p : String) : String :=
  String.mk ((p.toList.reverse.takeWhile (fun c => c ≠ '/')).reverse)

/-- `Path(p).suffix`: the extension of the final component, per pathlib:
with `i` the index of the last dot in the name, the suffix is `name[i:]`
when `0 < i < len(name) - 1`, else `""`. -/
def pySuffix (p : String) : String :=
  let nm := (pyName p).toList
  match nm.reverse.findIdx? (fun c => c = '.') with
  | none => ""
  | some j =>
    let i := nm.length - 1 - j
    if 0 < i ∧ i < nm.length - 1 then String.mk (nm.drop i) else ""

/-- Python `s.lstrip(".")`: drop every leading dot. -/
def lstripDot (s : String) : String :=
  String.mk (s.toList.dropWhile (fun c => c = '.'))

/-- Python format `{n:03d}` for a natural number. -/
def pad3 (n : Nat) : String :=
  let s := toString n
  if s.length < 3 then String.mk (List.replicate (3 - s.length) '0') ++ s else s

/-- A Python `dict[str, Any]` with the loader's value universe, as an
insertion-ordered association list with unique keys. -/
abbrev Metadata := List (String × PyVal)

/-- `d[k] = v`: replace in place if the key exists, else append. -/
def dictSet : Metadata → String → PyVal → Metadata
  | [], k, v => [(k, v)]
  | (k', v') :: rest, k, v =>
    if k' = k then (k, v) :: rest else (k', v') :: dictSet rest k v

/-- `d.get(k)` as an `Option`. -/
def dictGet (m : Metadata) (k : String) : Option PyVal :=
  (m.find? (fun p => p.1 = k)).map (fun p => p.2)

/-- `d.update(overlay)`. -/
def dictUpdate (m : Metadata) (overlay : Metadata) : Metadata :=
  overlay.foldl (fun acc p => dictSet acc p.1 p.2) m

/-- A LangChain `Document`: page content plus metadata. -/
structure Document where
  page_content : String
  metadata : Metadata
  deriving DecidableEq, Repr

/-- The collaborator's reported file-type object, as probed by
`_normalize_file_type`: its `str()` form and its optional `name` / `value`
attributes (`getattr(value, "name", None)` collapses absent to `None`,
modelled as `PyVal.vnone`). -/
structure FileTypeObj where
  strForm : String
  name : PyVal
  value : PyVal
  deriving DecidableEq, Repr

/-- A file path as used by the loader; `pathStr` is `str(path)`. -/
structure FilePath where
  pathStr : String
  deriving DecidableEq, Repr

/-- One rule pass of `_normalize_file_type`'s candidate loop body. -/
def fileTypeOfToken (token : String) : Option String :=
  let lowered := pyLower token
  if strContains lowered "hwpx" then some "hwpx"
  else if strContains lowered "hwp5" || lowered = "hwp" then some "hwp"
  else if pyEndsWith lowered ".hwpx" then some "hwpx"
  else if pyEndsWith lowered ".hwp" then some "hwp"
  else none

/-- The candidate loop of `_normalize_file_type`. -/
def fileTypeScan : List String → Option String
  | [] => none
  | t :: rest =>
    match fileTypeOfToken t with
    | some r => some r
    | none => fileTypeScan rest

/-- `_normalize_file_type(value, file_path)`. -/
def normalizeFileType (value : Option FileTypeObj) (fp : FilePath) : String :=
  let candidates :=
    (match value with
     | none => []
     | some v =>
       [v.strForm]
         ++ (if v.name ≠ PyVal.vnone then [pyStr v.name] else [])
         ++ (if v.value ≠ PyVal.vnone then [pyStr v.value] else []))
      ++ [lstripDot (pySuffix fp.pathStr)]
  match fileTypeScan candidates with
  | some r => r
  | none => pyLower (lstripDot (pySuffix fp.pathStr))

/-- A hyperlink record as supplied by the collaborator: a tuple/list, a
mapping, or an attribute-bearing object. Missing dict keys / attributes
default to `""`; present values go through `_string`. -/
inductive Hyperlink where
  | tup (items : List PyVal) : Hyperlink
  | dict (text : Option PyVal) (url : Option PyVal) : Hyperlink
  | obj (text : Option PyVal) (url : Option PyVal) : Hyperlink
  deriving DecidableEq, Repr

/-- `_normalize_hyperlink(hyperlink)`: a stripped `(text, url)` pair. -/
def normalizeHyperlink : Hyperlink → String × String
  | .tup items =>
    let text := match items.get? 0 with | some v => pyStr v | none => ""
    let url := match items.get? 1 with | some v => pyStr v | none => ""
    (pyTrim text, pyTrim url)
  | .dict text url =>
    (pyTrim (pyStr (text.getD (PyVal.vstr ""))), pyTrim (pyStr (url.getD (PyVal.vstr ""))))
  | .obj text url =>
    (pyTrim (pyStr (text.getD (PyVal.vstr ""))), pyTrim (pyStr (url.getD (PyVal.vstr ""))))

/-- A table handle: optional `row_count` / `col_count` attributes, optional
rendering capabilities (`to_csv` takes the delimiter; outputs are the
`_string` of the call result), the optional `rows` attribute and the
`str()` form of the handle itself (the final fallback of `_render_table`). -/
structure Table where
  row_count : Option PyVal := none
  col_count : Option PyVal := none
  to_csv : Option (String → String) := none
  to_inline : Option String := none
  to_markdown : Option String := none
  rows : Option PyVal := none
  selfStr : String := ""

/-- A note handle (`note_type` absent defaults to `"footnote"`). -/
structure Note where
  note_type : Option PyVal := none
  number : Option PyVal := none
  text : Option PyVal := none
  deriving DecidableEq, Repr

/-- A memo handle. -/
structure Memo where
  id : Option PyVal := none
  memo_id : Option PyVal := none
  author : Option PyVal := none
  referenced_text : Option PyVal := none
  text : Option PyVal := none
  deriving DecidableEq, Repr

/-- An image handle; `hasSave` is `hasattr(image, "save")`. -/
structure Image where
  filename : Option PyVal := none
  format : Option PyVal := none
  hasSave : Bool := false
  deriving DecidableEq, Repr

/-- The collaborator's table-style object: its `str()` form and its
optional `name` attribute. A raw string style is `⟨s, none⟩`. -/
structure StyleObj where
  strForm : String
  name : Option PyVal := none
  deriving DecidableEq, Repr

/-- Extraction options as probed by the renderers (`none` = attribute
absent; a `table_style` of `None` is modelled the same as absent since
both `getattr` probes land on the same defaults). -/
structure ExtractOptions where
  paragraph_separator : Option PyVal := none
  table_style : Option StyleObj := none
  table_delimiter : Option PyVal := none

/-- The structured extraction result (`none` = field absent or `None`). -/
structure ExtractResult where
  text : Option PyVal := none
  tables : Option (List Table) := none
  notes : Option (List Note) := none
  memos : Option (List Memo) := none
  hyperlinks : Option (List Hyperlink) := none

/-- A Python exception as the loader distinguishes them. -/
inductive PyExc where
  | loaderError (msg : String) : PyExc
  | skipFile : PyExc
  | valueError (msg : String) : PyExc
  | fileNotFound (msg : String) : PyExc
  | other (cls : String) (msg : String) : PyExc
  deriving DecidableEq, Repr

/-- `exc.__class__.__name__`. -/
def PyExc.className : PyExc → String
  | .loaderError _ => "HwpHwpxLoaderError"
  | .skipFile => "_SkipFile"
  | .valueError _ => "ValueError"
  | .fileNotFound _ => "FileNotFoundError"
  | .other cls _ => cls

/-- `str(exc)`. -/
def PyExc.toStr : PyExc → String
  | .loaderError msg => msg
  | .skipFile => ""
  | .valueError msg => msg
  | .fileNotFound msg => msg
  | .other _ msg => msg

/-- `isinstance(exc, HwpHwpxLoaderError)`. -/
def PyExc.isLoaderError : PyExc → Bool
  | .loaderError _ => true
  | _ => false

/-- A filesystem side effect performed during image materialization. -/
inductive FsOp where
  | mkdirAll (path : String) : FsOp
  | saveImage (path : String) : FsOp
  deriving DecidableEq, Repr

/-- Outcome of `reader.extract_text_with_notes(...)`. -/
inductive ExtractOutcome where
  | ok (r : ExtractResult) : ExtractOutcome
  | raises (e : PyExc) : ExtractOutcome

/-- The collaborator's reader object. `is_encrypted` / `is_valid` model
`bool(getattr(reader, ..., default))`; `get_tables` / `get_images` are
`some` exactly when the reader has the method. -/
structure Reader where
  is_encrypted : Bool := false
  is_valid : Bool := true
  file_type : Option FileTypeObj := none
  text : Option PyVal := none
  get_tables : Option (List Table) := none
  get_images : Option (List Image) := none
  extract : ExtractOutcome

/-- `HwpHwpxLoader` configuration (constructor-validated fields kept as
their string literals). -/
structure LoaderConfig where
  mode : String := "single"
  extract_options : Option ExtractOptions := none
  include_tables : Bool := true
  include_notes : Bool := true
  include_memos : Bool := true
  include_hyperlinks : Bool := true
  include_images : Bool := false
  images_dir : Option String := none
  image_document_mode : String := "metadata_only"
  on_encrypted : String := "raise"
  on_invalid : String := "raise"
  on_error : String := "raise"
  extra_metadata : Metadata := []
  include_extracted_at : Bool := true

/-- Ambient values the loader reads from the environment: the current
UTC timestamp and the two version strings. -/
structure Env where
  now : String := ""
  version : String := ""
  parserVersion : String := ""

/-- `HwpHwpxLoader._collect_tables`. -/
def collectTables (reader : Reader) (result : ExtractResult) : List Table :=
  match result.tables with
  | some l => l
  | none =>
    match reader.get_tables with
    | some l => l
    | none => []

/-- `HwpHwpxLoader._collect_notes`. -/
def collectNotes (result : ExtractResult) : List Note :=
  (result.notes).getD []

/-- `HwpHwpxLoader._collect_memos`. -/
def collectMemos (result : ExtractResult) : List Memo :=
  (result.memos).getD []

/-- `HwpHwpxLoader._collect_hyperlinks`. -/
def collectHyperlinks (result : ExtractResult) : List Hyperlink :=
  (result.hyperlinks).getD []

/-- `HwpHwpxLoader._collect_images`. -/
def collectImages (reader : Reader) : List Image :=
  (reader.get_images).getD []

/-- `HwpHwpxLoader._extract_body_text`: the structured result's text,
falling back to the reader's raw text when empty after stripping. -/
def extractBodyText (reader : Reader) (result : ExtractResult) : String :=
  let text := pyTrim (pyStr (result.text.getD (PyVal.vstr "")))
  if text ≠ "" then text
  else pyTrim (pyStr (reader.text.getD (PyVal.vstr "")))

/-- `HwpHwpxLoader._element_metadata`. -/
def elementMetadata (base : Metadata) (element_type : String) (element_index : Nat) : Metadata :=
  dictSet (dictSet base "element_type" (PyVal.vstr element_type))
    "element_index" (PyVal.vint (Int.ofNat element_index))

/-- `HwpHwpxLoader._build_common_metadata`. -/
def buildCommonMetadata (cfg : LoaderConfig) (fp : FilePath) (reader : Reader) (env : Env) : Metadata :=
  let md : Metadata :=
    [("source", PyVal.vstr fp.pathStr),
     ("file_name", PyVal.vstr (pyName fp.pathStr)),
     ("file_type", PyVal.vstr (normalizeFileType reader.file_type fp)),
     ("loader", PyVal.vstr ("langchain_hwp_hwpx/" ++ env.version)),
     ("parser", PyVal.vstr ("hwp-hwpx-parser/" ++ env.parserVersion))]
  let md := if cfg.include_extracted_at then dictSet md "extracted_at" (PyVal.vstr env.now) else md
  dictUpdate md cfg.extra_metadata

/-- `HwpHwpxLoader._render_table`. -/
def renderTable (opts : Option ExtractOptions) (table : Table) : String :=
  let tsty := opts.bind (fun o => o.table_style)
  let fromName :=
    match tsty with
    | some st => pyStr (st.name.getD (PyVal.vstr ""))
    | none => ""
  let styleRaw :=
    if fromName = "" then
      match tsty with
      | some st => st.strForm
      | none => ""
    else fromName
  let style_name := pyUpper styleRaw
  if strContains style_name "CSV" && table.to_csv.isSome then
    let d0 :=
      match opts.bind (fun o => o.table_delimiter) with
      | some v => pyStr v
      | none => ","
    let csv_delimiter := if pyTrim d0 = "" then "," else pyTrim d0
    pyTrim ((table.to_csv.getD (fun _ => "")) csv_delimiter)
  else if strContains style_name "INLINE" && table.to_inline.isSome then
    pyTrim (table.to_inline.getD "")
  else if table.to_markdown.isSome then
    pyTrim (table.to_markdown.getD "")
  else
    match table.rows with
    | some v => pyTrim (pyStr v)
    | none => pyTrim table.selfStr

/-- The `fmt` computed by `_materialize_image`: the stripped, lower-cased
`format` attribute, defaulting to `"bin"`. -/
def imageFmt (image : Image) : String :=
  let fmt0 := pyLower (pyTrim (pyStr (image.format.getD (PyVal.vstr "bin"))))
  if fmt0 = "" then "bin" else fmt0

/-- The `resolved_name` computed by `_materialize_image`: the stripped
`filename` attribute, else the generated `image_{index:03d}.{fmt}` name. -/
def imageResolvedName (imageIndex : Nat) (image : Image) : String :=
  let filename := pyTrim (pyStr (image.filename.getD (PyVal.vstr "")))
  if filename = "" then "image_" ++ pad3 imageIndex ++ "." ++ imageFmt image
  else filename

/-- `HwpHwpxLoader._materialize_image`: returns the page content, the
updated metadata dict, and the filesystem effects performed. -/
def materializeImage (cfg : LoaderConfig) (fileName : String) (imageIndex : Nat) (image : Image) (metadata : Metadata) : String × Metadata × List FsOp :=
  let fmt := imageFmt image
  let resolved_name := imageResolvedName imageIndex image
  let md := dictSet (dictSet metadata "filename" (PyVal.vstr resolved_name))
    "image_format" (PyVal.vstr fmt)
  let descriptive := resolved_name ++ " (" ++ fmt ++ ") from " ++ fileName
  if cfg.image_document_mode = "save_and_reference" then
    match cfg.images_dir with
    | some d =>
      let p0 := d ++ "/" ++ resolved_name
      let output_path := if pySuffix p0 = "" then p0 ++ "." ++ fmt else p0
      if image.hasSave then
        (resolved_name ++ " -> " ++ output_path,
         dictSet md "saved_path" (PyVal.vstr output_path),
         [FsOp.mkdirAll d, FsOp.saveImage output_path])
      else (descriptive, md, [FsOp.mkdirAll d])
    | none => (descriptive, md, [])
  else (descriptive, md, [])

/-- `value not in (None, "")`: the guard on copied memo metadata. -/
def memoValueKept : PyVal → Bool
  | .vnone => false
  | .vstr s => s ≠ ""
  | .vint _ => true

/-- `metadata[key] = n` when the optional count parsed to an `int`
(`if row_count is not None: ...`). -/
def dictSetIntOpt (md : Metadata) (key : String) (o : Option Int) : Metadata :=
  match o with
  | some n => dictSet md key (PyVal.vint n)
  | none => md

/-- `metadata[key] = value` guarded by `value not in (None, "")`. -/
def dictSetIfKept (md : Metadata) (key : String) (v : Option PyVal) : Metadata :=
  let value := v.getD PyVal.vnone
  if memoValueKept value then dictSet md key value else md

/-- The tables loop of `_build_element_documents`, from element index `i`. -/
def tableDocs (opts : Option ExtractOptions) (base : Metadata) : List Table → Nat → List Document
  | [], _ => []
  | t :: rest, i =>
    let md0 := elementMetadata base "table" i
    let md1 := dictSetIntOpt md0 "row_count" (safeInt (t.row_count.getD PyVal.vnone))
    let md2 := dictSetIntOpt md1 "col_count" (safeInt (t.col_count.getD PyVal.vnone))
    { page_content := renderTable opts t, metadata := md2 } :: tableDocs opts base rest (i + 1)

/-- The notes loop of `_build_element_documents`. -/
def noteDocs (base : Metadata) : List Note → Nat → List Document
  | [], _ => []
  | n :: rest, i =>
    let note_type := pyLower (pyStr (n.note_type.getD (PyVal.vstr "footnote")))
    let element_type := if note_type = "endnote" then "endnote" else "footnote"
    let md0 := dictSet (elementMetadata base element_type i) "note_type" (PyVal.vstr note_type)
    let md1 := dictSetIntOpt md0 "note_number" (safeInt (n.number.getD PyVal.vnone))
    { page_content := pyTrim (pyStr (n.text.getD (PyVal.vstr ""))), metadata := md1 }
      :: noteDocs base rest (i + 1)

/-- The memos loop of `_build_element_documents`. -/
def memoDocs (base : Metadata) : List Memo → Nat → List Document
  | [], _ => []
  | m :: rest, i =>
    let md0 := elementMetadata base "memo" i
    let md1 := dictSetIfKept md0 "id" m.id
    let md2 := dictSetIfKept md1 "memo_id" m.memo_id
    let md3 := dictSetIfKept md2 "author" m.author
    let md4 := dictSetIfKept md3 "referenced_text" m.referenced_text
    { page_content := pyTrim (pyStr (m.text.getD (PyVal.vstr ""))), metadata := md4 }
      :: memoDocs base rest (i + 1)

/-- The hyperlinks loop of `_build_element_documents`: a record whose
normalized pair is empty on both sides is skipped without advancing `i`. -/
def hyperlinkDocs (base : Metadata) : List Hyperlink → Nat → List Document
  | [], _ => []
  | h :: rest, i =>
    let md0 := elementMetadata base "hyperlink" i
    let tu := normalizeHyperlink h
    if tu.1 = "" ∧ tu.2 = "" then hyperlinkDocs base rest i
    else
      let md1 := if tu.2 ≠ "" then dictSet md0 "url" (PyVal.vstr tu.2) else md0
      let md2 := if tu.1 ≠ "" then dictSet md1 "text" (PyVal.vstr tu.1) else md1
      let content := if tu.1 ≠ "" then tu.1 else tu.2
      { page_content := content, metadata := md2 } :: hyperlinkDocs base rest (i + 1)

/-- The images loop of `_build_element_documents`: `imageIndex` is the
per-type `enumerate` counter, `i` the shared element index. -/
def imageDocs (cfg : LoaderConfig) (fileName : String) (base : Metadata) : List Image → Nat → Nat → List Document × List FsOp
  | [], _, _ => ([], [])
  | img :: rest, imageIndex, i =>
    let md0 := elementMetadata base "image" i
    let r := materializeImage cfg fileName imageIndex img md0
    let acc := imageDocs cfg fileName base rest (imageIndex + 1) (i + 1)
    ({ page_content := r.1, metadata := r.2.1 } :: acc.1, r.2.2 ++ acc.2)

/-- `HwpHwpxLoader._build_element_documents`: documents plus effects. -/
def buildElementDocuments (cfg : LoaderConfig) (fp : FilePath) (reader : Reader) (result : ExtractResult) (base : Metadata) : List Document × List FsOp :=
  let body_text := extractBodyText reader result
  let bodyPart : List Document :=
    if body_text ≠ "" then
      [{ page_content := body_text, metadata := elementMetadata base "body" 0 }]
    else []
  let i1 := bodyPart.length
  let tablePart :=
    if cfg.include_tables then tableDocs cfg.extract_options base (collectTables reader result) i1
    else []
  let i2 := i1 + tablePart.length
  let notePart := if cfg.include_notes then noteDocs base (collectNotes result) i2 else []
  let i3 := i2 + notePart.length
  let memoPart := if cfg.include_memos then memoDocs base (collectMemos result) i3 else []
  let i4 := i3 + memoPart.length
  let hyperlinkPart :=
    if cfg.include_hyperlinks then hyperlinkDocs base (collectHyperlinks result) i4 else []
  let i5 := i4 + hyperlinkPart.length
  let imagePart :=
    if cfg.include_images then imageDocs cfg (pyName fp.pathStr) base (collectImages reader) 0 i5
    else ([], [])
  (bodyPart ++ tablePart ++ notePart ++ memoPart ++ hyperlinkPart ++ imagePart.1, imagePart.2)

/-- `HwpHwpxLoader._render_tables_for_single`. -/
def renderTablesForSingle (opts : Option ExtractOptions) (reader : Reader) (result : ExtractResult) : String :=
  let tables := collectTables reader result
  if tables.isEmpty then ""
  else
    let d0 :=
      match opts.bind (fun o => o.paragraph_separator) with
      | some v => pyStr v
      | none => "\n\n"
    let delimiter := if pyTrim d0 = "" then "\n\n" else pyTrim d0
    "## Tables\n" ++ String.intercalate delimiter (tables.map (renderTable opts))

/-- `HwpHwpxLoader._render_notes_for_single`. -/
def renderNotesForSingle (result : ExtractResult) : String :=
  let notes := collectNotes result
  if notes.isEmpty then ""
  else
    let lines := notes.map (fun n =>
      let note_type := pyLower (pyStr (n.note_type.getD (PyVal.vstr "footnote")))
      let marker :=
        match safeInt (n.number.getD PyVal.vnone) with
        | some k => "[" ++ note_type ++ ":" ++ toString k ++ "]"
        | none => "[" ++ note_type ++ "]"
      pyTrim (marker ++ " " ++ pyTrim (pyStr (n.text.getD (PyVal.vstr "")))))
    String.intercalate "\n" ("## Notes" :: lines)

/-- The single-mode memo lines, 1-indexed (`enumerate(memos, start=1)`). -/
def memoLines : List Memo → Nat → List String
  | [], _ => []
  | m :: rest, idx =>
    let author := pyTrim (pyStr (m.author.getD PyVal.vnone))
    let text := pyTrim (pyStr (m.text.getD (PyVal.vstr "")))
    let label0 := "[memo:" ++ toString idx ++ "]"
    let label := if author ≠ "" then label0 ++ " (" ++ author ++ ")" else label0
    pyTrim (label ++ " " ++ text) :: memoLines rest (idx + 1)

/-- `HwpHwpxLoader._render_memos_for_single`. -/
def renderMemosForSingle (result : ExtractResult) : String :=
  let memos := collectMemos result
  if memos.isEmpty then ""
  else String.intercalate "\n" ("## Memos" :: memoLines memos 1)

/-- `HwpHwpxLoader._render_hyperlinks_for_single`. -/
def renderHyperlinksForSingle (result : ExtractResult) : String :=
  let links := collectHyperlinks result
  if links.isEmpty then ""
  else
    let lines := links.filterMap (fun h =>
      let tu := normalizeHyperlink h
      if tu.1 ≠ "" ∧ tu.2 ≠ "" then some ("- " ++ tu.1 ++ ": " ++ tu.2)
      else if tu.2 ≠ "" then some ("- " ++ tu.2)
      else if tu.1 ≠ "" then some ("- " ++ tu.1)
      else none)
    String.intercalate "\n" ("## Hyperlinks" :: lines)

/-- The single-mode image lines (each materialization's effects kept). -/
def imageLines (cfg : LoaderConfig) (fileName : String) : List Image → Nat → List String × List FsOp
  | [], _ => ([], [])
  | img :: rest, imageIndex =>
    let r := materializeImage cfg fileName imageIndex img []
    let acc := imageLines cfg fileName rest (imageIndex + 1)
    (r.1 :: acc.1, r.2.2 ++ acc.2)

/-- `HwpHwpxLoader._render_images_for_single`. -/
def renderImagesForSingle (cfg : LoaderConfig) (fp : FilePath) (reader : Reader) : String × List FsOp :=
  let images := collectImages reader
  if images.isEmpty then ("", [])
  else
    let r := imageLines cfg (pyName fp.pathStr) images 0
    (String.intercalate "\n" ("## Images" :: r.1), r.2)

/-- `HwpHwpxLoader._build_single_document`: the one aggregated document
plus the image-materialization effects. -/
def buildSingleDocument (cfg : LoaderConfig) (fp : FilePath) (reader : Reader) (result : ExtractResult) (base : Metadata) : Document × List FsOp :=
  let body_text := extractBodyText reader result
  let chunks0 : List String := if body_text ≠ "" then [body_text] else []
  let chunks1 := chunks0 ++
    (if cfg.include_tables then
      let t := renderTablesForSingle cfg.extract_options reader result
      if t ≠ "" then [t] else []
     else [])
  let chunks2 := chunks1 ++
    (if cfg.include_notes then
      let t := renderNotesForSingle result
      if t ≠ "" then [t] else []
     else [])
  let chunks3 := chunks2 ++
    (if cfg.include_memos then
      let t := renderMemosForSingle result
      if t ≠ "" then [t] else []
     else [])
  let chunks4 := chunks3 ++
    (if cfg.include_hyperlinks then
      let t := renderHyperlinksForSingle result
      if t ≠ "" then [t] else []
     else [])
  let imagesPart :=
    if cfg.include_images then renderImagesForSingle cfg fp reader else ("", [])
  let chunks5 := chunks4 ++ (if imagesPart.1 ≠ "" then [imagesPart.1] else [])
  let content := pyTrim (String.intercalate "\n\n" (chunks5.filter (fun c => c ≠ "")))
  ({ page_content := content,
     metadata := dictSet base "element_type" (PyVal.vstr "document") },
   imagesPart.2)

/-- The placeholder document built by `_resolve_status_policy`'s
`placeholder` branch. -/
def placeholderDoc (status : String) (fp : FilePath) (base : Metadata) : Document :=
  { page_content := "[" ++ pyUpper status ++ "] " ++ pyName fp.pathStr
      ++ " cannot be parsed by policy.",
    metadata := dictSet (dictSet base "status" (PyVal.vstr status))
      "element_type" (PyVal.vstr "placeholder") }

/-- `HwpHwpxLoader._resolve_status_policy`: raises, signals skip, or
returns the placeholder document. -/
def resolveStatusPolicy (policy status : String) (fp : FilePath) (base : Metadata) : Except PyExc (Option Document) :=
  let message := "Document skipped because it is " ++ status ++ ": " ++ fp.pathStr
  if policy = "raise" then Except.error (PyExc.loaderError message)
  else if policy = "skip" then Except.error PyExc.skipFile
  else Except.ok (some (placeholderDoc status fp base))

/-- `HwpHwpxLoader._handle_file_status`: the encrypted check runs first. -/
def handleFileStatus (cfg : LoaderConfig) (fp : FilePath) (reader : Reader) (base : Metadata) : Except PyExc (Option Document) :=
  if reader.is_encrypted then resolveStatusPolicy cfg.on_encrypted "encrypted" fp base
  else if !reader.is_valid then resolveStatusPolicy cfg.on_invalid "invalid" fp base
  else Except.ok none

/-- `HwpHwpxLoader._handle_runtime_error`: the logged warnings and the
exception re-raised or newly raised, if any. -/
def handleRuntimeError (cfg : LoaderConfig) (fp : FilePath) (e : PyExc) : List String × Option PyExc :=
  let message := "Failed to parse " ++ fp.pathStr ++ ": " ++ e.className
  if cfg.on_error = "raise" then
    if e.isLoaderError then ([], some e)
    else ([], some (PyExc.loaderError message))
  else if cfg.on_error = "warn" then ([message ++ " (" ++ e.toStr ++ ")"], none)
  else ([], none)

/-- The chain of `except` clauses at the bottom of `lazy_load`:
`_SkipFile` ends the generator, a structured error re-raises unchanged,
anything else goes through `_handle_runtime_error`. -/
def exceptPipeline (cfg : LoaderConfig) (fp : FilePath) (e : PyExc) : List String × Option PyExc :=
  if e = PyExc.skipFile then ([], none)
  else if e.isLoaderError then ([], some e)
  else handleRuntimeError cfg fp e

/-- One exhausted run of the `lazy_load` generator: the documents
yielded, the warnings logged, the exception escaping (if any), and the
filesystem effects performed. -/
structure LoadResult where
  docs : List Document := []
  warnings : List String := []
  exc : Option PyExc := none
  effects : List FsOp := []
  deriving Repr

/-- The supported-extension set of `lazy_load`'s precondition check. -/
def supportedExtensions : List String := [".hwp", ".hwpx"]

/-- `HwpHwpxLoader.lazy_load`, run to exhaustion. `fileExists` models
`file_path.exists()`; the reader stands for `parser.Reader(str(path))`. -/
def lazyLoad (cfg : LoaderConfig) (fp : FilePath) (fileExists : Bool) (reader : Reader) (env : Env) : LoadResult :=
  if pyLower (pySuffix fp.pathStr) ∉ supportedExtensions then
    { exc := some (PyExc.valueError
        ("Unsupported extension for " ++ fp.pathStr ++ ". Use .hwp or .hwpx")) }
  else if !fileExists then
    { exc := some (PyExc.fileNotFound ("File not found: " ++ fp.pathStr)) }
  else
    let base := buildCommonMetadata cfg fp reader env
    match handleFileStatus cfg fp reader base with
    | Except.error e =>
      let r := exceptPipeline cfg fp e
      { warnings := r.1, exc := r.2 }
    | Except.ok (some placeholder) => { docs := [placeholder] }
    | Except.ok none =>
      match reader.extract with
      | ExtractOutcome.raises e =>
        let r := exceptPipeline cfg fp e
        { warnings := r.1, exc := r.2 }
      | ExtractOutcome.ok result =>
        if cfg.mode = "single" then
          let r := buildSingleDocument cfg fp reader result base
          { docs := [r.1], effects := r.2 }
        else
          let r := buildElementDocuments cfg fp reader result base
          { docs := r.1, effects := r.2 }

/-- One filesystem entry produced by the directory glob. -/
structure DirEntry where
  pathStr : String
  isFile : Bool
  deriving DecidableEq, Repr

/-- Lexicographic comparison of character lists by code point, the order
Python uses to compare strings. -/
def charListLe : List Char → List Char → Bool
  | [], _ => true
  | _ :: _, [] => false
  | a :: as, b :: bs =>
    if a.toNat < b.toNat then true
    else if b.toNat < a.toNat then false
    else charListLe as bs

/-- Python `str` ordering, as used by `sorted(files, key=lambda item: str(item))`. -/
def pathLe (a b : String) : Prop :=
  charListLe a.toList b.toList = true

instance : DecidableRel pathLe :=
  fun a b => inferInstanceAs (Decidable (charListLe a.toList b.toList = true))

/-- `HwpHwpxDirectoryLoader._normalize_extension`: strip, lower, require
non-empty, ensure one leading dot. `none` models the `ValueError`. -/
def normalizeExtension (extension : String) : Option String :=
  let e := pyLower (pyTrim extension)
  if e = "" then none
  else if decide ((".").toList <+: e.toList) then some e
  else some ("." ++ e)

/-- The filter-and-sort of `HwpHwpxDirectoryLoader._collect_files`,
applied to the glob's enumeration (`candidates`); returns the full path
strings of the kept files, sorted ascending. -/
def collectFiles (extensions : List String) (candidates : List DirEntry) : List String :=
  List.insertionSort pathLe
    ((candidates.filter
      (fun p => p.isFile && pyLower (pySuffix p.pathStr) ∈ extensions)).map
      (fun p => p.pathStr))

/-- The per-file loop of `HwpHwpxDirectoryLoader.lazy_load`: each file's
exhausted single-loader run is forwarded; an escaping exception is
handled by the directory-level error policy. -/
def dirProcess (on_error : String) : List (String × LoadResult) → List Document × List String × Option PyExc
  | [] => ([], [], none)
  | (p, r) :: rest =>
    match r.exc with
    | none =>
      let acc := dirProcess on_error rest
      (r.docs ++ acc.1, r.warnings ++ acc.2.1, acc.2.2)
    | some e =>
      let message := "Failed to load file " ++ p ++ ": " ++ e.className
      if on_error = "raise" then
        (r.docs, r.warnings, some (PyExc.loaderError message))
      else if on_error = "warn" then
        let acc := dirProcess on_error rest
        (r.docs ++ acc.1, r.warnings ++ [message ++ " (" ++ e.toStr ++ ")"] ++ acc.2.1, acc.2.2)
      else
        let acc := dirProcess on_error rest
        (r.docs ++ acc.1, r.warnings ++ acc.2.1, acc.2.2)

/-! Order properties of the path comparison used by the directory
collector's sort. -/

theorem charListLe_total : ∀ as bs, charListLe as bs = true ∨ charListLe bs as = true
  | [], _ => Or.inl rfl
  | _ :: _, [] => Or.inr rfl
  | a :: as, b :: bs => by
    by_cases h1 : a.toNat < b.toNat
    · left; simp [charListLe, h1]
    · by_cases h2 : b.toNat < a.toNat
      · right; simp [charListLe, h2]
      · rcases charListLe_total as bs with h | h
        · left; simp [charListLe, h1, h2, h]
        · right; simp [charListLe, h1, h2, h]

theorem charListLe_trans : ∀ as bs cs, charListLe as bs = true → charListLe bs cs = true →
    charListLe as cs = true
  | [], _, _, _, _ => rfl
  | _ :: _, [], _, h1, _ => by simp [charListLe] at h1
  | _ :: _, _ :: _, [], _, h2 => by simp [charListLe] at h2
  | a :: as, b :: bs, c :: cs, h1, h2 => by
    simp only [charListLe] at h1 h2 ⊢
    by_cases hab : a.toNat < b.toNat
    · by_cases hbc : b.toNat < c.toNat
      · rw [if_pos (by omega)]
      · by_cases hcb : c.toNat < b.toNat
        · rw [if_neg hbc, if_pos hcb] at h2
          exact absurd h2 (by simp)
        · rw [if_pos (by omega)]
    · by_cases hba : b.toNat < a.toNat
      · rw [if_neg hab, if_pos hba] at h1
        exact absurd h1 (by simp)
      · rw [if_neg hab, if_neg hba] at h1
        by_cases hbc : b.toNat < c.toNat
        · rw [if_pos (by omega)]
        · by_cases hcb : c.toNat < b.toNat
          · rw [if_neg hbc, if_pos hcb] at h2
            exact absurd h2 (by simp)
          · rw [if_neg hbc, if_neg hcb] at h2
            rw [if_neg (by omega : ¬a.toNat < c.toNat),
              if_neg (by omega : ¬c.toNat < a.toNat)]
            exact charListLe_trans as bs cs h1 h2

theorem charListLe_antisymm : ∀ as bs, charListLe as bs = true → charListLe bs as = true →
    as = bs
  | [], [], _, _ => rfl
  | [], _ :: _, _, h2 => by simp [charListLe] at h2
  | _ :: _, [], h1, _ => by simp [charListLe] at h1
  | a :: as, b :: bs, h1, h2 => by
    simp only [charListLe] at h1 h2
    by_cases hab : a.toNat < b.toNat
    · by_cases hba : b.toNat < a.toNat
      · omega
      · rw [if_neg hba, if_pos hab] at h2
        exact absurd h2 (by simp)
    · by_cases hba : b.toNat < a.toNat
      · rw [if_neg hab, if_pos hba] at h1
        exact absurd h1 (by simp)
      · rw [if_neg hab, if_neg hba] at h1
        rw [if_neg hba, if_neg hab] at h2
        have h3 : a.toNat = b.toNat := by omega
        have hc : a = b := Char.eq_of_val_eq (UInt32.ext h3)
        rw [hc, charListLe_antisymm as bs h1 h2]

instance : IsTotal String pathLe :=
  ⟨fun a b => charListLe_total a.toList b.toList⟩

instance : IsTrans String pathLe :=
  ⟨fun a b c => charListLe_trans a.toList b.toList c.toList⟩

instance : IsAntisymm String pathLe :=
  ⟨fun a b h1 h2 => by
    cases a; cases b
    exact congrArg String.mk (by simpa using charListLe_antisymm _ _ h1 h2)⟩

/-! Lookup lemmas for the metadata dictionary. -/

theorem dictGet_dictSet_self (m : Metadata) (k : String) (v : PyVal) :
    dictGet (dictSet m k v) k = some v := by
  induction m with
  | nil => simp [dictSet, dictGet, List.find?]
  | cons p rest ih =>
    by_cases h : p.1 = k
    · simp [dictSet, h, dictGet, List.find?]
    · simp only [dictSet, h, if_false]
      simpa [dictGet, List.find?, h] using ih

theorem dictGet_dictSet_ne (m : Metadata) (a b : String) (v : PyVal) (hne : b ≠ a) :
    dictGet (dictSet m a v) b = dictGet m b := by
  have hne' : a ≠ b := Ne.symm hne
  induction m with
  | nil => simp [dictSet, dictGet, List.find?, hne']
  | cons p rest ih =>
    by_cases hp : p.1 = a
    · simp [dictSet, hp, dictGet, List.find?, hne']
    · simp only [dictSet, hp, if_false]
      by_cases hb : p.1 = b
      · simp [dictGet, List.find?, hb]
      · simpa [dictGet, List.find?, hb] using ih

theorem dictGet_elementMetadata_type (base : Metadata) (t : String) (i : Nat) :
    dictGet (elementMetadata base t i) "element_type" = some (PyVal.vstr t) := by
  unfold elementMetadata
  rw [dictGet_dictSet_ne _ _ _ _ (by decide)]
  exact dictGet_dictSet_self _ _ _

theorem dictGet_elementMetadata_index (base : Metadata) (t : String) (i : Nat) :
    dictGet (elementMetadata base t i) "element_index" = some (PyVal.vint (Int.ofNat i)) := by
  unfold elementMetadata
  exact dictGet_dictSet_self _ _ _

theorem dictGet_dictSetIntOpt (md : Metadata) (key k : String) (o : Option Int)
    (h : k ≠ key) : dictGet (dictSetIntOpt md key o) k = dictGet md k := by
  cases o
  · rfl
  · exact dictGet_dictSet_ne md key k _ h

theorem dictGet_ite_dictSet (c : Prop) [Decidable c] (md : Metadata) (key k : String)
    (v : PyVal) (h : k ≠ key) :
    dictGet (if c then dictSet md key v else md) k = dictGet md k := by
  split
  · exact dictGet_dictSet_ne md key k v h
  · rfl

theorem dictGet_dictSetIfKept (md : Metadata) (key k : String) (v : Option PyVal)
    (h : k ≠ key) : dictGet (dictSetIfKept md key v) k = dictGet md k := by
  simp only [dictSetIfKept]
  exact dictGet_ite_dictSet _ md key k _ h

theorem dictGet_materializeImage_metadata (cfg : LoaderConfig) (fileName : String)
    (i : Nat) (image : Image) (md : Metadata) (k : String)
    (h1 : k ≠ "filename") (h2 : k ≠ "image_format") (h3 : k ≠ "saved_path") :
    dictGet (materializeImage cfg fileName i image md).2.1 k = dictGet md k := by
  unfold materializeImage
  by_cases hm : cfg.image_document_mode = "save_and_reference"
  · simp only [hm, if_true]
    cases cfg.images_dir with
    | none =>
      rw [dictGet_dictSet_ne _ _ _ _ h2, dictGet_dictSet_ne _ _ _ _ h1]
    | some d =>
      by_cases hs : image.hasSave = true
      · simp only [hs, if_true]
        rw [dictGet_dictSet_ne _ _ _ _ h3, dictGet_dictSet_ne _ _ _ _ h2,
          dictGet_dictSet_ne _ _ _ _ h1]
      · have hs' : image.hasSave = false := by
          cases hhs : image.hasSave
          · rfl
          · exact absurd hhs hs
        simp only [hs', Bool.false_eq_true, if_false]
        rw [dictGet_dictSet_ne _ _ _ _ h2, dictGet_dictSet_ne _ _ _ _ h1]
  · simp only [hm, if_false]
    rw [dictGet_dictSet_ne _ _ _ _ h2, dictGet_dictSet_ne _ _ _ _ h1]

/-! Concrete fixtures mirroring the repository's test doubles. -/

def sampleTable : Table :=
  { row_count := some (PyVal.vint 2), col_count := some (PyVal.vint 2),
    to_markdown := some "|A|B|", selfStr := "table" }

def sampleFootnote : Note :=
  { note_type := some (PyVal.vstr "footnote"), number := some (PyVal.vint 1),
    text := some (PyVal.vstr "fn") }

def sampleEndnote : Note :=
  { note_type := some (PyVal.vstr "endnote"), number := some (PyVal.vint 2),
    text := some (PyVal.vstr "en") }

def sampleMemo : Memo :=
  { id := some (PyVal.vstr "m1"), author := some (PyVal.vstr "tester"),
    text := some (PyVal.vstr "memo") }

def sampleHyperlink : Hyperlink :=
  Hyperlink.tup [PyVal.vstr "site", PyVal.vstr "https://example.com"]

def sampleImage : Image :=
  { filename := some (PyVal.vstr "diagram.png"), format := some (PyVal.vstr "png"),
    hasSave := true }

def sampleResult : ExtractResult :=
  { text := some (PyVal.vstr "body"), tables := some [sampleTable],
    notes := some [sampleFootnote, sampleEndnote], memos := some [sampleMemo],
    hyperlinks := some [sampleHyperlink] }

def sampleReader : Reader :=
  { text := some (PyVal.vstr "raw"), get_images := some [sampleImage],
    extract := ExtractOutcome.ok sampleResult }

def sampleFilePath : FilePath := { pathStr := "/tmp/sample.hwp" }

def elementsConfig : LoaderConfig := { mode := "elements", include_images := true }

def sampleEnv : Env := { now := "t0", version := "1.0.0", parserVersion := "0.9" }

/-- C4: with `on_encrypted="placeholder"` and a reader reporting encrypted,
`lazy_load` yields exactly one document whose content is the upper-cased
`[ENCRYPTED]` marker followed by the file name, whose metadata has
`status = "encrypted"` and `element_type = "placeholder"`; no warning, no
exception and no filesystem effect is produced, and the outcome is the
same whatever the structured-extraction call would have returned (no
further extraction happens for the file). -/
theorem encrypted_placeholder_single_marker_document
    (cfg : LoaderConfig) (fp : FilePath) (reader : Reader) (env : Env)
    (hpol : cfg.on_encrypted = "placeholder")
    (henc : reader.is_encrypted = true)
    (hsuf : pyLower (pySuffix fp.pathStr) ∈ supportedExtensions) :
    (lazyLoad cfg fp true reader env).docs.length = 1 ∧
    (∀ d, d ∈ (lazyLoad cfg fp true reader env).docs →
      d.page_content =
        "[ENCRYPTED] " ++ pyName fp.pathStr ++ " cannot be parsed by policy." ∧
      dictGet d.metadata "status" = some (PyVal.vstr "encrypted") ∧
      dictGet d.metadata "element_type" = some (PyVal.vstr "placeholder")) ∧
    (lazyLoad cfg fp true reader env).warnings = [] ∧
    (lazyLoad cfg fp true reader env).exc = none ∧
    (lazyLoad cfg fp true reader env).effects = [] ∧
    (∀ e, lazyLoad cfg fp true { reader with extract := e } env =
      lazyLoad cfg fp true reader env) := by
  have hne : ¬pyLower (pySuffix fp.pathStr) ∉ supportedExtensions := by simpa using hsuf
  have hrun : ∀ e : ExtractOutcome,
      lazyLoad cfg fp true { reader with extract := e } env =
      { docs := [placeholderDoc "encrypted" fp (buildCommonMetadata cfg fp reader env)] } := by
    intro e
    simp [lazyLoad, hne, handleFileStatus, henc, resolveStatusPolicy, hpol,
      buildCommonMetadata]
  have hmain : lazyLoad cfg fp true reader env =
      { docs := [placeholderDoc "encrypted" fp (buildCommonMetadata cfg fp reader env)] } := by
    have h := hrun reader.extract
    have heta : ({ reader with extract := reader.extract } : Reader) = reader := rfl
    rwa [heta] at h
  have hcontent : (placeholderDoc "encrypted" fp
      (buildCommonMetadata cfg fp reader env)).page_content =
      "[ENCRYPTED] " ++ pyName fp.pathStr ++ " cannot be parsed by policy." := by
    have hupper : pyUpper "encrypted" = "ENCRYPTED" := rfl
    simp [placeholderDoc, hupper, String.append_assoc]
  refine ⟨?_, ?_, ?_, ?_, ?_, ?_⟩
  · rw [hmain]; rfl
  · intro d hd
    rw [hmain] at hd
    simp only [List.mem_singleton] at hd
    subst hd
    refine ⟨hcontent, ?_, ?_⟩
    · show dictGet (placeholderDoc "encrypted" fp _).metadata "status" = _
      unfold placeholderDoc
      rw [dictGet_dictSet_ne _ _ _ _ (by decide)]
      exact dictGet_dictSet_self _ _ _
    · show dictGet (placeholderDoc "encrypted" fp _).metadata "element_type" = _
      unfold placeholderDoc
      exact dictGet_dictSet_self _ _ _
  · rw [hmain]
  · rw [hmain]
  · rw [hmain]
  · intro e
    rw [hrun e]
    rw [hmain]

/-- C4 witness at a concrete encrypted reader. -/
theorem encrypted_placeholder_single_marker_document_witness :
    (lazyLoad { on_encrypted := "placeholder" } sampleFilePath true
      { sampleReader with is_encrypted := true } sampleEnv).docs.length = 1 ∧
    (∀ d, d ∈ (lazyLoad { on_encrypted := "placeholder" } sampleFilePath true
        { sampleReader with is_encrypted := true } sampleEnv).docs →
      d.page_content =
        "[ENCRYPTED] " ++ pyName sampleFilePath.pathStr ++ " cannot be parsed by policy." ∧
      dictGet d.metadata "status" = some (PyVal.vstr "encrypted") ∧
      dictGet d.metadata "element_type" = some (PyVal.vstr "placeholder")) ∧
    (lazyLoad { on_encrypted := "placeholder" } sampleFilePath true
      { sampleReader with is_encrypted := true } sampleEnv).warnings = [] ∧
    (lazyLoad { on_encrypted := "placeholder" } sampleFilePath true
      { sampleReader with is_encrypted := true } sampleEnv).exc = none ∧
    (lazyLoad { on_encrypted := "placeholder" } sampleFilePath true
      { sampleReader with is_encrypted := true } sampleEnv).effects = [] ∧
    (∀ e, lazyLoad { on_encrypted := "placeholder" } sampleFilePath true
        { { sampleReader with is_encrypted := true } with extract := e } sampleEnv =
      lazyLoad { on_encrypted := "placeholder" } sampleFilePath true
        { sampleReader with is_encrypted := true } sampleEnv) :=
  encrypted_placeholder_single_marker_document
    { on_encrypted := "placeholder" } sampleFilePath
    { sampleReader with is_encrypted := true } sampleEnv rfl rfl (by decide)

/-- C5: when the reader reports both encrypted and invalid, the status
gate applies the encrypted policy, and the invalid policy is never
consulted: the outcome only depends on `on_encrypted`. -/
theorem encrypted_takes_priority_over_invalid
    (cfg : LoaderConfig) (fp : FilePath) (reader : Reader) (base : Metadata)
    (henc : reader.is_encrypted = true)
    (_hinv : reader.is_valid = false) :
    handleFileStatus cfg fp reader base =
      resolveStatusPolicy cfg.on_encrypted "encrypted" fp base ∧
    (∀ cfg' : LoaderConfig, cfg'.on_encrypted = cfg.on_encrypted →
      handleFileStatus cfg' fp reader base = handleFileStatus cfg fp reader base) := by
  constructor
  · simp [handleFileStatus, henc]
  · intro cfg' hsame
    simp [handleFileStatus, henc, hsame]

/-- C5 witness at a concrete reader flagged both encrypted and invalid. -/
theorem encrypted_takes_priority_over_invalid_witness :
    handleFileStatus { on_encrypted := "skip", on_invalid := "raise" } sampleFilePath
      { sampleReader with is_encrypted := true, is_valid := false } [] =
      resolveStatusPolicy "skip" "encrypted" sampleFilePath [] ∧
    (∀ cfg' : LoaderConfig, cfg'.on_encrypted = "skip" →
      handleFileStatus cfg' sampleFilePath
        { sampleReader with is_encrypted := true, is_valid := false } [] =
      handleFileStatus { on_encrypted := "skip", on_invalid := "raise" } sampleFilePath
        { sampleReader with is_encrypted := true, is_valid := false } []) :=
  encrypted_takes_priority_over_invalid
    { on_encrypted := "skip", on_invalid := "raise" } sampleFilePath
    { sampleReader with is_encrypted := true, is_valid := false } [] rfl rfl

/-- C2: when the structured-extraction call raises an ordinary
(non-structured, non-skip-signal) exception, `on_error="raise"` makes the
run fail with a structured loader error naming the original exception
class and the file path; `on_error="warn"` yields zero documents and logs
exactly one warning starting with "Failed to parse"; `on_error="skip"`
yields zero documents, logs nothing and raises nothing. -/
theorem extraction_error_policies
    (cfg : LoaderConfig) (fp : FilePath) (reader : Reader) (env : Env) (e : PyExc)
    (hsuf : pyLower (pySuffix fp.pathStr) ∈ supportedExtensions)
    (henc : reader.is_encrypted = false)
    (hval : reader.is_valid = true)
    (hex : reader.extract = ExtractOutcome.raises e)
    (hord : e.isLoaderError = false)
    (hskip : e ≠ PyExc.skipFile) :
    (lazyLoad { cfg with on_error := "raise" } fp true reader env).docs = [] ∧
    (lazyLoad { cfg with on_error := "raise" } fp true reader env).exc =
      some (PyExc.loaderError
        ("Failed to parse " ++ fp.pathStr ++ ": " ++ e.className)) ∧
    (lazyLoad { cfg with on_error := "warn" } fp true reader env).docs = [] ∧
    (lazyLoad { cfg with on_error := "warn" } fp true reader env).exc = none ∧
    (lazyLoad { cfg with on_error := "warn" } fp true reader env).warnings =
      ["Failed to parse " ++ fp.pathStr ++ ": " ++ e.className
        ++ " (" ++ e.toStr ++ ")"] ∧
    (lazyLoad { cfg with on_error := "skip" } fp true reader env).docs = [] ∧
    (lazyLoad { cfg with on_error := "skip" } fp true reader env).exc = none ∧
    (lazyLoad { cfg with on_error := "skip" } fp true reader env).warnings = [] := by
  have hne : ¬pyLower (pySuffix fp.pathStr) ∉ supportedExtensions := by simpa using hsuf
  refine ⟨?_, ?_, ?_, ?_, ?_, ?_, ?_, ?_⟩ <;>
    simp [lazyLoad, hne, handleFileStatus, henc, hval, hex, exceptPipeline, hskip,
      handleRuntimeError, hord]

/-- C2 witness: a concrete reader whose extraction raises `RuntimeError("boom")`. -/
theorem extraction_error_policies_witness :
    (lazyLoad { on_error := "raise" } sampleFilePath true
      { sampleReader with extract :=
        ExtractOutcome.raises (PyExc.other "RuntimeError" "boom") } sampleEnv).docs = [] ∧
    (lazyLoad { on_error := "raise" } sampleFilePath true
      { sampleReader with extract :=
        ExtractOutcome.raises (PyExc.other "RuntimeError" "boom") } sampleEnv).exc =
      some (PyExc.loaderError
        ("Failed to parse " ++ "/tmp/sample.hwp" ++ ": " ++
          (PyExc.other "RuntimeError" "boom").className)) ∧
    (lazyLoad { on_error := "warn" } sampleFilePath true
      { sampleReader with extract :=
        ExtractOutcome.raises (PyExc.other "RuntimeError" "boom") } sampleEnv).docs = [] ∧
    (lazyLoad { on_error := "warn" } sampleFilePath true
      { sampleReader with extract :=
        ExtractOutcome.raises (PyExc.other "RuntimeError" "boom") } sampleEnv).exc = none ∧
    (lazyLoad { on_error := "warn" } sampleFilePath true
      { sampleReader with extract :=
        ExtractOutcome.raises (PyExc.other "RuntimeError" "boom") } sampleEnv).warnings =
      ["Failed to parse " ++ "/tmp/sample.hwp" ++ ": " ++
        (PyExc.other "RuntimeError" "boom").className
        ++ " (" ++ (PyExc.other "RuntimeError" "boom").toStr ++ ")"] ∧
    (lazyLoad { on_error := "skip" } sampleFilePath true
      { sampleReader with extract :=
        ExtractOutcome.raises (PyExc.other "RuntimeError" "boom") } sampleEnv).docs = [] ∧
    (lazyLoad { on_error := "skip" } sampleFilePath true
      { sampleReader with extract :=
        ExtractOutcome.raises (PyExc.other "RuntimeError" "boom") } sampleEnv).exc = none ∧
    (lazyLoad { on_error := "skip" } sampleFilePath true
      { sampleReader with extract :=
        ExtractOutcome.raises (PyExc.other "RuntimeError" "boom") } sampleEnv).warnings = [] :=
  extraction_error_policies {} sampleFilePath
    { sampleReader with extract := ExtractOutcome.raises (PyExc.other "RuntimeError" "boom") }
    sampleEnv (PyExc.other "RuntimeError" "boom") (by decide) rfl rfl rfl rfl (by decide)

/-- C3 counterexample: a structured loader error escaping a file is
re-wrapped by the directory collector's per-file containment — the
exception the directory run raises is a new structured error with a
different message, not the original one propagated unchanged. -/
theorem directory_rewraps_structured_error_counterexample :
    (lazyLoad { on_encrypted := "raise" } sampleFilePath true
      { sampleReader with is_encrypted := true } sampleEnv).exc =
      some (PyExc.loaderError
        "Document skipped because it is encrypted: /tmp/sample.hwp") ∧
    (dirProcess "raise" [("/tmp/sample.hwp",
        lazyLoad { on_encrypted := "raise" } sampleFilePath true
          { sampleReader with is_encrypted := true } sampleEnv)]).2.2 =
      some (PyExc.loaderError
        "Failed to load file /tmp/sample.hwp: HwpHwpxLoaderError") ∧
    (dirProcess "raise" [("/tmp/sample.hwp",
        lazyLoad { on_encrypted := "raise" } sampleFilePath true
          { sampleReader with is_encrypted := true } sampleEnv)]).2.2 ≠
      (lazyLoad { on_encrypted := "raise" } sampleFilePath true
        { sampleReader with is_encrypted := true } sampleEnv).exc := by
  decide

/-- C3 amended: a structured loader error raised by the extraction call
propagates unchanged through the single-file extractor's containment
(whatever the error policy), but the directory collector's per-file
containment under `on_error="raise"` wraps any escaping exception —
including an already-structured one — into a new structured error naming
the file and the original exception class. -/
theorem structured_error_propagation_amended
    (cfg : LoaderConfig) (fp : FilePath) (reader : Reader) (env : Env) (m : String)
    (hsuf : pyLower (pySuffix fp.pathStr) ∈ supportedExtensions)
    (henc : reader.is_encrypted = false)
    (hval : reader.is_valid = true)
    (hex : reader.extract = ExtractOutcome.raises (PyExc.loaderError m)) :
    (lazyLoad cfg fp true reader env).exc = some (PyExc.loaderError m) ∧
    (∀ (p : String) (rest : List (String × LoadResult)) (r : LoadResult),
      r.exc = some (PyExc.loaderError m) →
      (dirProcess "raise" ((p, r) :: rest)).2.2 =
        some (PyExc.loaderError
          ("Failed to load file " ++ p ++ ": HwpHwpxLoaderError"))) := by
  have hne : ¬pyLower (pySuffix fp.pathStr) ∉ supportedExtensions := by simpa using hsuf
  constructor
  · simp [lazyLoad, hne, handleFileStatus, henc, hval, hex, exceptPipeline,
      PyExc.isLoaderError]
  · intro p rest r hr
    simp [dirProcess, hr, PyExc.className, String.append_assoc]

/-- C3 amended witness: concrete structured error through both layers. -/
theorem structured_error_propagation_amended_witness :
    (lazyLoad {} sampleFilePath true
      { sampleReader with extract :=
        ExtractOutcome.raises (PyExc.loaderError "boom") } sampleEnv).exc =
      some (PyExc.loaderError "boom") ∧
    (dirProcess "raise" [("f.hwp",
      ({ exc := some (PyExc.loaderError "boom") } : LoadResult))]).2.2 =
      some (PyExc.loaderError "Failed to load file f.hwp: HwpHwpxLoaderError") := by
  have h := structured_error_propagation_amended {} sampleFilePath
    { sampleReader with extract := ExtractOutcome.raises (PyExc.loaderError "boom") }
    sampleEnv "boom" (by decide) rfl rfl rfl
  exact ⟨h.1, h.2 "f.hwp" [] ({ exc := some (PyExc.loaderError "boom") } : LoadResult) rfl⟩

/-- C9 counterexample: with persistence mode `save_and_reference`, a
configured images directory and an image handle lacking a save
capability, materialization returns the descriptive string but still
creates the directory — a filesystem side effect the claim rules out. -/
theorem image_no_save_capability_mkdir_counterexample :
    (materializeImage
      { image_document_mode := "save_and_reference", images_dir := some "out" }
      "sample.hwp" 0 { hasSave := false } []).1 =
      "image_000.bin (bin) from sample.hwp" ∧
    (materializeImage
      { image_document_mode := "save_and_reference", images_dir := some "out" }
      "sample.hwp" 0 { hasSave := false } []).2.2 = [FsOp.mkdirAll "out"] ∧
    ([FsOp.mkdirAll "out"] : List FsOp) ≠ [] := by
  decide

/-- C9 amended: when the save-and-reference path is not fully taken, the
returned content is the descriptive `"{name} ({format}) from {file}"`
string; the filesystem effects are empty when the mode is not
`save_and_reference` or no directory is configured, but the directory is
still created when both are set and only the save capability is missing. -/
theorem image_materialize_no_save_path_amended
    (cfg : LoaderConfig) (fileName : String) (i : Nat) (image : Image) (md : Metadata)
    (h : cfg.image_document_mode ≠ "save_and_reference" ∨ cfg.images_dir = none ∨
      image.hasSave = false) :
    (materializeImage cfg fileName i image md).1 =
      imageResolvedName i image ++ " (" ++ imageFmt image ++ ") from " ++ fileName ∧
    (materializeImage cfg fileName i image md).2.2 =
      (if cfg.image_document_mode = "save_and_reference" then
        (match cfg.images_dir with
         | some d => [FsOp.mkdirAll d]
         | none => ([] : List FsOp))
       else []) := by
  unfold materializeImage
  by_cases hm : cfg.image_document_mode = "save_and_reference"
  · rcases hd : cfg.images_dir with _ | d
    · simp [hm, hd]
    · have hs : image.hasSave = false := by
        rcases h with h | h | h
        · exact absurd hm h
        · rw [hd] at h; cases h
        · exact h
      simp [hm, hd, hs]
  · simp [hm]

/-- C9 amended witness: concrete no-save image under save_and_reference. -/
theorem image_materialize_no_save_path_amended_witness :
    (materializeImage
      { image_document_mode := "save_and_reference", images_dir := some "out" }
      "sample.hwp" 0 { hasSave := false } []).1 =
      imageResolvedName 0 { hasSave := false } ++ " (" ++
        imageFmt { hasSave := false } ++ ") from " ++ "sample.hwp" ∧
    (materializeImage
      { image_document_mode := "save_and_reference", images_dir := some "out" }
      "sample.hwp" 0 { hasSave := false } []).2.2 =
      (if ("save_and_reference" : String) = "save_and_reference" then
        (match (some "out" : Option String) with
         | some d => [FsOp.mkdirAll d]
         | none => ([] : List FsOp))
       else []) :=
  image_materialize_no_save_path_amended
    { image_document_mode := "save_and_reference", images_dir := some "out" }
    "sample.hwp" 0 { hasSave := false } [] (Or.inr (Or.inr rfl))

/-- A suffix is in particular a substring. -/
theorem strContains_of_pyEndsWith (s t : String) (h : pyEndsWith s t = true) :
    strContains s t = true := by
  simp only [pyEndsWith, decide_eq_true_eq] at h
  simp only [strContains, decide_eq_true_eq]
  exact List.IsSuffix.isInfix h

/-- C8 counterexample: a reported type object whose string form contains
"hwp" (but not "hwp5", is not exactly "hwp" and does not end in ".hwp")
does not yield "hwp"; the scan falls through to the extension fallback. -/
theorem file_type_hwp_containment_counterexample :
    strContains (pyLower "XDocHWPy") "hwp" = true ∧
    normalizeFileType
      (some { strForm := "XDocHWPy", name := PyVal.vnone, value := PyVal.vnone })
      { pathStr := "/d/a.docx" } = "docx" ∧
    ("docx" : String) ≠ "hwp" := by
  decide

/-- C8 amended: scanning the string form of the reported type object,
a candidate containing "hwpx" (case-insensitively) yields "hwpx"; a
candidate yields "hwp" when it contains "hwp5", equals "hwp", or ends
with ".hwp" case-insensitively — mere containment of "hwp" matches no
rule. -/
theorem file_type_token_rules_amended (v : FileTypeObj) (fp : FilePath)
    (h : strContains (pyLower v.strForm) "hwpx" = true ∨
      strContains (pyLower v.strForm) "hwp5" = true ∨
      pyLower v.strForm = "hwp" ∨
      pyEndsWith (pyLower v.strForm) ".hwp" = true) :
    normalizeFileType (some v) fp =
      (if strContains (pyLower v.strForm) "hwpx" = true then "hwpx" else "hwp") := by
  by_cases h1 : strContains (pyLower v.strForm) "hwpx" = true
  · simp [normalizeFileType, fileTypeScan, fileTypeOfToken, h1]
  · have hx : ¬pyEndsWith (pyLower v.strForm) ".hwpx" = true := by
      intro hx
      apply h1
      simp only [strContains, decide_eq_true_eq]
      have h2 : (".hwpx".toList) <:+: (pyLower v.strForm).toList := by
        simp only [pyEndsWith, decide_eq_true_eq] at hx
        exact List.IsSuffix.isInfix hx
      exact List.IsInfix.trans (by decide) h2
    have hf : strContains "hwp" "hwpx" = false := by decide
    rcases h with h | h | h | h
    · exact absurd h h1
    · simp [normalizeFileType, fileTypeScan, fileTypeOfToken, h1, h]
    · simp [normalizeFileType, fileTypeScan, fileTypeOfToken, h, hf]
    · by_cases h5 : strContains (pyLower v.strForm) "hwp5" = true
      · simp [normalizeFileType, fileTypeScan, fileTypeOfToken, h1, h5]
      · by_cases heq : pyLower v.strForm = "hwp"
        · simp [normalizeFileType, fileTypeScan, fileTypeOfToken, heq, hf]
        · simp [normalizeFileType, fileTypeScan, fileTypeOfToken, h1, h5, heq, hx, h]

/-- C8 amended witness: the "hwp5"-containing string form yields "hwp". -/
theorem file_type_token_rules_amended_witness :
    normalizeFileType
      (some { strForm := "HWP5Format", name := PyVal.vnone, value := PyVal.vnone })
      { pathStr := "/d/a.docx" } =
      (if strContains (pyLower "HWP5Format") "hwpx" = true then "hwpx" else "hwp") :=
  file_type_token_rules_amended
    { strForm := "HWP5Format", name := PyVal.vnone, value := PyVal.vnone }
    { pathStr := "/d/a.docx" } (Or.inr (Or.inl (by decide)))

/-- C6: the directory collector's file-collection step keeps exactly the
regular files whose lower-cased extension is in the configured extension
set, returns them sorted by full path string ascending, and produces the
same list for any enumeration order of the same filesystem entries. -/
theorem collect_files_filter_sort_deterministic
    (exts : List String) (c1 c2 : List DirEntry) (hperm : c1.Perm c2) :
    (∀ p, p ∈ collectFiles exts c1 ↔
      ∃ e, e ∈ c1 ∧ e.isFile = true ∧ pyLower (pySuffix e.pathStr) ∈ exts ∧
        p = e.pathStr) ∧
    List.Sorted pathLe (collectFiles exts c1) ∧
    collectFiles exts c1 = collectFiles exts c2 := by
  refine ⟨?_, ?_, ?_⟩
  · intro p
    simp only [collectFiles, List.mem_insertionSort, List.mem_map, List.mem_filter,
      Bool.and_eq_true, decide_eq_true_eq]
    constructor
    · rintro ⟨e, ⟨he, hf, hext⟩, hp⟩
      exact ⟨e, he, hf, hext, hp.symm⟩
    · rintro ⟨e, he, hf, hext, hp⟩
      exact ⟨e, ⟨he, hf, hext⟩, hp.symm⟩
  · exact List.sorted_insertionSort pathLe _
  · exact List.eq_of_perm_of_sorted
      (((List.perm_insertionSort pathLe _).trans
        ((hperm.filter _).map _)).trans (List.perm_insertionSort pathLe _).symm)
      (List.sorted_insertionSort pathLe _)
      (List.sorted_insertionSort pathLe _)

/-- C6 witness: a mixed-case, mixed-kind entry set in two enumeration
orders. -/
theorem collect_files_filter_sort_deterministic_witness :
    (∀ p, p ∈ collectFiles [".hwp", ".hwpx"]
        [{ pathStr := "/r/b.hwp", isFile := true },
         { pathStr := "/r/a.HWPX", isFile := true },
         { pathStr := "/r/ignored.txt", isFile := true },
         { pathStr := "/r/sub", isFile := false }] ↔
      ∃ e, e ∈ [({ pathStr := "/r/b.hwp", isFile := true } : DirEntry),
         { pathStr := "/r/a.HWPX", isFile := true },
         { pathStr := "/r/ignored.txt", isFile := true },
         { pathStr := "/r/sub", isFile := false }] ∧ e.isFile = true ∧
        pyLower (pySuffix e.pathStr) ∈ [".hwp", ".hwpx"] ∧ p = e.pathStr) ∧
    List.Sorted pathLe (collectFiles [".hwp", ".hwpx"]
      [{ pathStr := "/r/b.hwp", isFile := true },
       { pathStr := "/r/a.HWPX", isFile := true },
       { pathStr := "/r/ignored.txt", isFile := true },
       { pathStr := "/r/sub", isFile := false }]) ∧
    collectFiles [".hwp", ".hwpx"]
      [{ pathStr := "/r/b.hwp", isFile := true },
       { pathStr := "/r/a.HWPX", isFile := true },
       { pathStr := "/r/ignored.txt", isFile := true },
       { pathStr := "/r/sub", isFile := false }] =
    collectFiles [".hwp", ".hwpx"]
      [{ pathStr := "/r/sub", isFile := false },
       { pathStr := "/r/ignored.txt", isFile := true },
       { pathStr := "/r/a.HWPX", isFile := true },
       { pathStr := "/r/b.hwp", isFile := true }] :=
  collect_files_filter_sort_deterministic [".hwp", ".hwpx"]
    [{ pathStr := "/r/b.hwp", isFile := true },
     { pathStr := "/r/a.HWPX", isFile := true },
     { pathStr := "/r/ignored.txt", isFile := true },
     { pathStr := "/r/sub", isFile := false }]
    [{ pathStr := "/r/sub", isFile := false },
     { pathStr := "/r/ignored.txt", isFile := true },
     { pathStr := "/r/a.HWPX", isFile := true },
     { pathStr := "/r/b.hwp", isFile := true }]
    (by decide)

/-- C10: in single mode with the status gate passing and extraction
succeeding, `lazy_load` yields exactly one document whose `element_type`
is `"document"`; when the body is empty and every feature section is
empty or excluded, that document is still produced, with empty content,
rather than the file being skipped. -/
theorem single_mode_always_one_document
    (cfg : LoaderConfig) (fp : FilePath) (reader : Reader) (env : Env)
    (result : ExtractResult)
    (hsuf : pyLower (pySuffix fp.pathStr) ∈ supportedExtensions)
    (hmode : cfg.mode = "single")
    (henc : reader.is_encrypted = false)
    (hval : reader.is_valid = true)
    (hex : reader.extract = ExtractOutcome.ok result) :
    (lazyLoad cfg fp true reader env).docs =
      [(buildSingleDocument cfg fp reader result
        (buildCommonMetadata cfg fp reader env)).1] ∧
    (∀ d ∈ (lazyLoad cfg fp true reader env).docs,
      dictGet d.metadata "element_type" = some (PyVal.vstr "document")) ∧
    (extractBodyText reader result = "" →
     collectTables reader result = [] →
     collectNotes result = [] → collectMemos result = [] →
     collectHyperlinks result = [] → collectImages reader = [] →
     ∀ d ∈ (lazyLoad cfg fp true reader env).docs, d.page_content = "") := by
  have hne : ¬pyLower (pySuffix fp.pathStr) ∉ supportedExtensions := by simpa using hsuf
  have hdocs : (lazyLoad cfg fp true reader env).docs =
      [(buildSingleDocument cfg fp reader result
        (buildCommonMetadata cfg fp reader env)).1] := by
    simp [lazyLoad, hne, handleFileStatus, henc, hval, hex, hmode]
  refine ⟨hdocs, ?_, ?_⟩
  · intro d hd
    rw [hdocs] at hd
    simp only [List.mem_singleton] at hd
    subst hd
    simp only [buildSingleDocument]
    exact dictGet_dictSet_self _ _ _
  · intro h1 h2 h3 h4 h5 h6 d hd
    rw [hdocs] at hd
    simp only [List.mem_singleton] at hd
    subst hd
    simp [buildSingleDocument, h1, h2, h3, h4, h5, h6, renderTablesForSingle,
      renderNotesForSingle, renderMemosForSingle, renderHyperlinksForSingle,
      renderImagesForSingle, ite_self]
    decide

/-- C10 witness: an entirely empty reader/result still yields one empty
"document" document. -/
theorem single_mode_always_one_document_witness :
    (lazyLoad {} sampleFilePath true
      { extract := ExtractOutcome.ok {} } sampleEnv).docs =
      [(buildSingleDocument {} sampleFilePath { extract := ExtractOutcome.ok {} } {}
        (buildCommonMetadata {} sampleFilePath
          { extract := ExtractOutcome.ok {} } sampleEnv)).1] ∧
    (∀ d ∈ (lazyLoad {} sampleFilePath true
        { extract := ExtractOutcome.ok {} } sampleEnv).docs,
      dictGet d.metadata "element_type" = some (PyVal.vstr "document")) ∧
    (extractBodyText { extract := ExtractOutcome.ok {} } {} = "" →
     collectTables { extract := ExtractOutcome.ok {} } {} = [] →
     collectNotes {} = [] → collectMemos {} = [] →
     collectHyperlinks {} = [] → collectImages { extract := ExtractOutcome.ok {} } = [] →
     ∀ d ∈ (lazyLoad {} sampleFilePath true
        { extract := ExtractOutcome.ok {} } sampleEnv).docs, d.page_content = "") :=
  single_mode_always_one_document {} sampleFilePath
    { extract := ExtractOutcome.ok {} } sampleEnv {} (by decide) rfl rfl rfl rfl

/-- Dropping a hyperlink whose normalized pair is empty on both sides
leaves the hyperlink loop's output unchanged, whatever the start index. -/
theorem hyperlinkDocs_skip_empty (base : Metadata) (h : Hyperlink)
    (hnorm : normalizeHyperlink h = ("", "")) :
    ∀ (l1 l2 : List Hyperlink) (i : Nat),
    hyperlinkDocs base (l1 ++ h :: l2) i = hyperlinkDocs base (l1 ++ l2) i := by
  intro l1
  induction l1 with
  | nil =>
    intro l2 i
    simp [hyperlinkDocs, hnorm]
  | cons a rest ih =>
    intro l2 i
    by_cases ha : (normalizeHyperlink a).1 = "" ∧ (normalizeHyperlink a).2 = ""
    · simp only [List.cons_append, hyperlinkDocs, ha, and_self, if_true]
      exact ih l2 i
    · simp only [List.cons_append, hyperlinkDocs]
      rw [if_neg ha, if_neg ha]
      exact congrArg _ (ih l2 (i + 1))

/-- C7: in elements mode, a hyperlink record normalizing to an empty
(text, url) pair yields no document and does not advance the shared
element index: the whole element-document build is unchanged when the
record is removed, so the next element gets the index the skipped
hyperlink would have had. -/
theorem empty_hyperlink_skipped_no_index_advance
    (cfg : LoaderConfig) (fp : FilePath) (reader : Reader) (base : Metadata)
    (t : Option PyVal) (tb : Option (List Table)) (nt : Option (List Note))
    (mm : Option (List Memo)) (l1 l2 : List Hyperlink) (h : Hyperlink)
    (hnorm : normalizeHyperlink h = ("", "")) :
    buildElementDocuments cfg fp reader
      { text := t, tables := tb, notes := nt, memos := mm,
        hyperlinks := some (l1 ++ h :: l2) } base =
    buildElementDocuments cfg fp reader
      { text := t, tables := tb, notes := nt, memos := mm,
        hyperlinks := some (l1 ++ l2) } base := by
  simp only [buildElementDocuments, extractBodyText, collectTables, collectNotes,
    collectMemos, collectHyperlinks, collectImages, Option.getD_some]
  rw [hyperlinkDocs_skip_empty base h hnorm l1 l2]

/-- C7 witness: a whitespace-only tuple hyperlink between two non-empty
ones is dropped with no index gap. -/
theorem empty_hyperlink_skipped_no_index_advance_witness :
    buildElementDocuments elementsConfig sampleFilePath sampleReader
      { text := some (PyVal.vstr "body"), tables := some [],
        notes := some [], memos := some [],
        hyperlinks := some ([sampleHyperlink] ++
          Hyperlink.tup [PyVal.vstr "  ", PyVal.vstr ""] ::
            [Hyperlink.tup [PyVal.vstr "x", PyVal.vstr "u"]]) } [] =
    buildElementDocuments elementsConfig sampleFilePath sampleReader
      { text := some (PyVal.vstr "body"), tables := some [],
        notes := some [], memos := some [],
        hyperlinks := some ([sampleHyperlink] ++
          [Hyperlink.tup [PyVal.vstr "x", PyVal.vstr "u"]]) } [] :=
  empty_hyperlink_skipped_no_index_advance elementsConfig sampleFilePath sampleReader []
    (some (PyVal.vstr "body")) (some []) (some []) (some [])
    [sampleHyperlink] [Hyperlink.tup [PyVal.vstr "x", PyVal.vstr "u"]]
    (Hyperlink.tup [PyVal.vstr "  ", PyVal.vstr ""]) (by decide)

/-- C1: in elements mode with every inclusion flag set and the
collaborator supplying one non-empty body, one table, one footnote and
one endnote, one memo, one non-empty hyperlink and one image, `lazy_load`
yields exactly seven documents whose `element_type` values are in order
body, table, footnote, endnote, memo, hyperlink, image, with one
continuous zero-based `element_index` counter 0..6 shared across all
element types. -/
theorem elements_mode_order_and_continuous_index
    (cfg : LoaderConfig) (fp : FilePath) (env : Env)
    (ft : Option FileTypeObj) (rtext : Option PyVal) (gt : Option (List Table))
    (bodyText : Option PyVal) (t : Table) (n1 n2 : Note) (m : Memo)
    (h : Hyperlink) (img : Image)
    (hsuf : pyLower (pySuffix fp.pathStr) ∈ supportedExtensions)
    (hmode : cfg.mode = "elements")
    (htab : cfg.include_tables = true) (hnotes : cfg.include_notes = true)
    (hmemos : cfg.include_memos = true) (hlinks : cfg.include_hyperlinks = true)
    (himgs : cfg.include_images = true)
    (hbody : pyTrim (pyStr (bodyText.getD (PyVal.vstr ""))) ≠ "")
    (hn1 : pyLower (pyStr (n1.note_type.getD (PyVal.vstr "footnote"))) ≠ "endnote")
    (hn2 : pyLower (pyStr (n2.note_type.getD (PyVal.vstr "footnote"))) = "endnote")
    (hh : ¬((normalizeHyperlink h).1 = "" ∧ (normalizeHyperlink h).2 = "")) :
    ((lazyLoad cfg fp true
      { is_encrypted := false, is_valid := true, file_type := ft, text := rtext,
        get_tables := gt, get_images := some [img],
        extract := ExtractOutcome.ok
          { text := bodyText, tables := some [t], notes := some [n1, n2],
            memos := some [m], hyperlinks := some [h] } } env).docs.map
      (fun d => dictGet d.metadata "element_type")) =
      [some (PyVal.vstr "body"), some (PyVal.vstr "table"),
       some (PyVal.vstr "footnote"), some (PyVal.vstr "endnote"),
       some (PyVal.vstr "memo"), some (PyVal.vstr "hyperlink"),
       some (PyVal.vstr "image")] ∧
    ((lazyLoad cfg fp true
      { is_encrypted := false, is_valid := true, file_type := ft, text := rtext,
        get_tables := gt, get_images := some [img],
        extract := ExtractOutcome.ok
          { text := bodyText, tables := some [t], notes := some [n1, n2],
            memos := some [m], hyperlinks := some [h] } } env).docs.map
      (fun d => dictGet d.metadata "element_index")) =
      [some (PyVal.vint 0), some (PyVal.vint 1), some (PyVal.vint 2),
       some (PyVal.vint 3), some (PyVal.vint 4), some (PyVal.vint 5),
       some (PyVal.vint 6)] := by
  have hne : ¬pyLower (pySuffix fp.pathStr) ∉ supportedExtensions := by simpa using hsuf
  have hm : ¬cfg.mode = "single" := by rw [hmode]; decide
  constructor <;>
    simp [lazyLoad, hne, handleFileStatus, hm, buildElementDocuments, extractBodyText,
      collectTables, collectNotes, collectMemos, collectHyperlinks, collectImages,
      hbody, htab, hnotes, hmemos, hlinks, himgs, hn1, hn2, hh,
      tableDocs, noteDocs, memoDocs, hyperlinkDocs, imageDocs,
      dictGet_elementMetadata_type, dictGet_elementMetadata_index,
      dictGet_dictSetIntOpt, dictGet_dictSetIfKept, dictGet_ite_dictSet,
      dictGet_dictSet_ne, dictGet_materializeImage_metadata,
      apply_ite (fun md : Metadata => dictGet md "element_type"),
      apply_ite (fun md : Metadata => dictGet md "element_index"), ite_self]

/-- C1 witness: the seven-element fixture run. -/
theorem elements_mode_order_and_continuous_index_witness :
    ((lazyLoad elementsConfig sampleFilePath true
      { is_encrypted := false, is_valid := true, file_type := none,
        text := some (PyVal.vstr "raw"), get_tables := none,
        get_images := some [sampleImage],
        extract := ExtractOutcome.ok
          { text := some (PyVal.vstr "body"), tables := some [sampleTable],
            notes := some [sampleFootnote, sampleEndnote], memos := some [sampleMemo],
            hyperlinks := some [sampleHyperlink] } } sampleEnv).docs.map
      (fun d => dictGet d.metadata "element_type")) =
      [some (PyVal.vstr "body"), some (PyVal.vstr "table"),
       some (PyVal.vstr "footnote"), some (PyVal.vstr "endnote"),
       some (PyVal.vstr "memo"), some (PyVal.vstr "hyperlink"),
       some (PyVal.vstr "image")] ∧
    ((lazyLoad elementsConfig sampleFilePath true
      { is_encrypted := false, is_valid := true, file_type := none,
        text := some (PyVal.vstr "raw"), get_tables := none,
        get_images := some [sampleImage],
        extract := ExtractOutcome.ok
          { text := some (PyVal.vstr "body"), tables := some [sampleTable],
            notes := some [sampleFootnote, sampleEndnote], memos := some [sampleMemo],
            hyperlinks := some [sampleHyperlink] } } sampleEnv).docs.map
      (fun d => dictGet d.metadata "element_index")) =
      [some (PyVal.vint 0), some (PyVal.vint 1), some (PyVal.vint 2),
       some (PyVal.vint 3), some (PyVal.vint 4), some (PyVal.vint 5),
       some (PyVal.vint 6)] :=
  elements_mode_order_and_continuous_index elementsConfig sampleFilePath sampleEnv
    none (some (PyVal.vstr "raw")) none (some (PyVal.vstr "body")) sampleTable
    sampleFootnote sampleEndnote sampleMemo sampleHyperlink sampleImage
    (by decide) rfl rfl rfl rfl rfl rfl (by decide) (by decide) (by decide) (by decide)

end HwpLoader
